import Mathlib

/-!
# Verification of the impress-outfit-logs backup/compression pipeline

Shallow embedding of the repository's core: the per-key backup-and-compress
workflow (`backupImage`, `saveBackupIfNotAlreadyDone`,
`replaceOriginalIfNotAlreadyDone`), the batch driver (`build-db`: paginated
enumeration, worker pool, cursor, retries, outfit-data promise cache), and
the key/outfit-id string manipulation (`parseS3Key` and the key builder).

Modelling conventions:
* The S3 object store is a function from keys to optional objects.  Of an
  object we model the fields the workflow reads or writes: the byte body
  (as `List Nat`), the value of the reserved `DTI-Outfit-Image-Kind` tag
  (as `Option String`; `none` means the object carries no such tag), and
  the storage class.  Presentation metadata the code also sets
  (ContentType, ACL) is not read back by any code path and is omitted.
* Asynchronous functions become state-passing functions returning
  `Store × Except String α`: the store at return or throw time, and the
  settled result.  `await` sequencing is the sequential composition of
  these functions, which is faithful because JavaScript suspends only at
  `await` and the workflow awaits every store operation it issues.
* JavaScript falsiness of a tag string (`t && ...`) is embedded as the
  explicit test `t ≠ ""`.
-/
namespace OutfitLogs

/-- Storage classes the scripts pass to S3. -/
inductive StorageClass where
  | STANDARD
  | STANDARD_IA
  | GLACIER
deriving DecidableEq, Repr

/-- The slice of an S3 object that the workflow reads or writes: body bytes,
the `DTI-Outfit-Image-Kind` tag value (`none` = tag absent), storage class. -/
structure S3Object where
  body : List Nat
  kindTag : Option String
  storageClass : StorageClass
deriving DecidableEq, Repr

/-- The object store: a key-to-object map. -/
def Store : Type := String → Option S3Object

/-- Write (create or overwrite) one key of the store. -/
def setObj (s : Store) (k : String) (o : S3Object) : Store :=
  fun k' => if k' = k then some o else s k'

/-- `loadImageTagging`: `getObjectTagging` wrapped to return `null` when the
key does not exist (`NoSuchKey`), else the tag map.  We model the returned
map by the value of its one reserved key: `some none` is an existing object
without the reserved tag, `some (some t)` an existing object tagged `t`. -/
def loadImageTagging (s : Store) (key : String) : Option (Option String) :=
  (s key).map (·.kindTag)

/-- The transitions of the metadata gate (spec §4.3). -/
inductive Transition where
  | Proceed
  | SkipAlreadyDone
  | SkipUnexpectedTag
  | SkipPriorFailure
deriving DecidableEq, Repr

/-- Snapshot-stage gate, read off the guard structure of
`saveBackupIfNotAlreadyDone`: with `--force` the copy always runs; otherwise
a present backup tagging short-circuits — warn-and-skip unless the tag is
exactly `backup`, in which case it is an already-done skip. -/
def snapshotGate (force : Bool) (backupTagging : Option (Option String)) :
    Transition :=
  if force then .Proceed
  else
    match backupTagging with
    | none => .Proceed
    | some t => if t = some "backup" then .SkipAlreadyDone
                else .SkipUnexpectedTag

/-- Replace-stage gate, read off the guard structure of
`replaceOriginalIfNotAlreadyDone`: with `--force` always proceed; a null
tagging throws `Image not found`; `compressed` and `compression-failed` are
info-skips; any other truthy tag value is a warn-and-skip; an absent (or
falsy, i.e. empty-string) tag value proceeds. -/
def replaceGate (force : Bool) (tagging : Option (Option String)) :
    Except String Transition :=
  if force then .ok .Proceed
  else
    match tagging with
    | none => .error "Image not found"
    | some none => .ok .Proceed
    | some (some t) =>
      if t = "compressed" then .ok .SkipAlreadyDone
      else if t = "compression-failed" then .ok .SkipPriorFailure
      else if t ≠ "" then .ok .SkipUnexpectedTag
      else .ok .Proceed

/-- `saveBackupIfNotAlreadyDone(s3, key, backupKey, backupTagging)`: unless
skipped by the snapshot gate, copy the original to the backup key with tag
`backup` and storage class `GLACIER`.  Returns whether a backup was saved. -/
def saveBackupIfNotAlreadyDone (force : Bool) (s : Store)
    (key backupKey : String) (backupTagging : Option (Option String)) :
    Store × Except String Bool :=
  match snapshotGate force backupTagging with
  | .Proceed =>
    match s key with
    | none => (s, .error "NoSuchKey")
    | some orig =>
      (setObj s backupKey ⟨orig.body, some "backup", .GLACIER⟩, .ok true)
  | _ => (s, .ok false)

/-- `replaceOriginalIfNotAlreadyDone(s3, key, tagging, getNewImages)`: unless
skipped by the replace gate, await the new images (original render and its
compressed variant); if the compressed variant is strictly larger, copy the
object over itself changing only tag (`compression-failed`) and storage
class (`STANDARD_IA`); otherwise overwrite the body with the compressed
bytes, tag `compressed`, storage class `STANDARD_IA`.  The code returns
`null` on a skip and `true` on a write; callers only use it boolean-ly, so
we return `false` for the skip. -/
def replaceOriginalIfNotAlreadyDone (force : Bool) (s : Store) (key : String)
    (tagging : Option (Option String))
    (getNewImages : Except String (List Nat × List Nat)) :
    Store × Except String Bool :=
  match replaceGate force tagging with
  | .error e => (s, .error e)
  | .ok .Proceed =>
    match getNewImages with
    | .error e => (s, .error e)
    | .ok (originalImage, compressedImage) =>
      if compressedImage.length > originalImage.length then
        match s key with
        | none => (s, .error "NoSuchKey")
        | some orig =>
          (setObj s key ⟨orig.body, some "compression-failed", .STANDARD_IA⟩,
           .ok true)
      else
        (setObj s key ⟨compressedImage, some "compressed", .STANDARD_IA⟩,
         .ok true)
  | .ok _ => (s, .ok false)

/-- `backupImage(s3, key, getOutfitData)`: read the original's tagging (throw
`Image not found` if the object is missing), then run the snapshot stage
against the backup key's tagging, then — only after the snapshot stage
settles — the replace stage against the tagging captured at the start.
Returns whether either stage made a change. -/
def backupImage (force : Bool) (s : Store) (key : String)
    (getNewImages : Except String (List Nat × List Nat)) :
    Store × Except String Bool :=
  let backupKey := key ++ ".bkup"
  match loadImageTagging s key with
  | none => (s, .error "Image not found")
  | some tagVal =>
    let backupTagging := loadImageTagging s backupKey
    match saveBackupIfNotAlreadyDone force s key backupKey backupTagging with
    | (s1, .error e) => (s1, .error e)
    | (s1, .ok didSaveBackup) =>
      match replaceOriginalIfNotAlreadyDone force s1 key (some tagVal)
          getNewImages with
      | (s2, .error e) => (s2, .error e)
      | (s2, .ok didReplaceOriginal) =>
        (s2, .ok (didSaveBackup || didReplaceOriginal))

/- Frame lemmas -/

def c5Store : Store := fun k =>
  if k = "outfits/000/000/001/preview.png" then
    some ⟨[5], none, .STANDARD⟩
  else if k = "outfits/000/000/001/preview.png.bkup" then
    some ⟨[7], some "backup", .GLACIER⟩
  else none

def c1Store : Store := fun k =>
  if k = "outfits/000/000/001/preview.png" then
    some ⟨[1, 2, 3], none, .STANDARD⟩
  else if k = "outfits/000/000/001/preview.png.bkup" then
    some ⟨[9], some "mystery", .GLACIER⟩
  else none

/-- The five tag classes of the spec's gate table (§4.3). -/
inductive SpecTag where
  | tagAbsent
  | tagBackup
  | tagCompressed
  | tagCompressionFailed
  | tagUnrecognized
deriving DecidableEq, Repr

/-- Spec table for the snapshot stage. -/
def specSnapshotTable (force : Bool) (tag : SpecTag) : Transition :=
  if force then .Proceed
  else
    match tag with
    | .tagAbsent => .Proceed
    | .tagBackup => .SkipAlreadyDone
    | .tagCompressed => .SkipUnexpectedTag
    | .tagCompressionFailed => .SkipUnexpectedTag
    | .tagUnrecognized => .SkipUnexpectedTag

/-- Spec table for the replace stage. -/
def specReplaceTable (force : Bool) (tag : SpecTag) : Transition :=
  if force then .Proceed
  else
    match tag with
    | .tagAbsent => .Proceed
    | .tagBackup => .SkipUnexpectedTag
    | .tagCompressed => .SkipAlreadyDone
    | .tagCompressionFailed => .SkipPriorFailure
    | .tagUnrecognized => .SkipUnexpectedTag

/-- Interpretation of a spec tag class as a snapshot-stage gate input: for the
backup key, "no tag" is the absence of the backup object (`loadImageTagging`
returns null); `u` is the representative unrecognized value. -/
def snapshotTagInput (tag : SpecTag) (u : String) : Option (Option String) :=
  match tag with
  | .tagAbsent => none
  | .tagBackup => some (some "backup")
  | .tagCompressed => some (some "compressed")
  | .tagCompressionFailed => some (some "compression-failed")
  | .tagUnrecognized => some (some u)

/-- Interpretation of a spec tag class as a replace-stage gate input: the
original object exists (its tagging was loaded), so "no tag" is a tag map
without the reserved key. -/
def replaceTagInput (tag : SpecTag) (u : String) : Option (Option String) :=
  match tag with
  | .tagAbsent => some none
  | .tagBackup => some (some "backup")
  | .tagCompressed => some (some "compressed")
  | .tagCompressionFailed => some (some "compression-failed")
  | .tagUnrecognized => some (some u)

/-- Modelled from the spec: the RetryExecutor (§4.1).  The scripts call the
`promise-retry` npm package, whose implementation is not among the
repository's sources; following the spec's contract we invoke the operation
up to `retries + 1` times, recording for every failed attempt a notification
`(attempt number, error)` and going straight on to the next attempt, and
after the last failure surface that last error.  `op n` is the outcome of
the n-th invocation (attempts are numbered from 1); the result is
`(settled result, number of invocations, notifications)`. -/
def retryGo (op : Nat → Except String α) : Nat → Nat →
    Except String α × Nat × List (Nat × String)
  | attempt, remaining =>
    match op attempt with
    | .ok a => (.ok a, 1, [])
    | .error e =>
      match remaining with
      | 0 => (.error e, 1, [(attempt, e)])
      | r + 1 =>
        let rest := retryGo op (attempt + 1) r
        (rest.1, rest.2.1 + 1, (attempt, e) :: rest.2.2)

/-- `promiseRetry(fn, { retries })`: run from attempt 1. -/
def promiseRetry (op : Nat → Except String α) (retries : Nat) :
    Except String α × Nat × List (Nat × String) :=
  retryGo op 1 retries

/-- `NUM_WORKERS` in build-db. -/
def NUM_WORKERS : Nat := 20

/-- `new LRUCache(NUM_WORKERS * 2)`. -/
def OUTFIT_DATA_CACHE_MAX : Nat := NUM_WORKERS * 2

/-- The outfit-data promise cache plus the ambient fetch bookkeeping: the LRU
entries map an outfit id to the cached promise (represented by a distinct
handle, drawn from `nextHandle`), and `fetchLog` records every underlying
`loadOutfitData` call that was started. -/
structure OutfitDataCache where
  entries : List (String × Nat)
  nextHandle : Nat
  fetchLog : List String
deriving DecidableEq, Repr

def lruCacheGet (id : String) (es : List (String × Nat)) : Option Nat :=
  (es.find? (fun p => p.1 == id)).map (·.2)

def lruCacheSet (id : String) (h : Nat) (es : List (String × Nat)) :
    List (String × Nat) :=
  ((id, h) :: es.filter (fun p => !(p.1 == id))).take OUTFIT_DATA_CACHE_MAX

/-- `loadOutfitDataWithCaching(outfitId)`: on a hit return the cached promise
handle; on a miss start `loadOutfitData` (recorded in the fetch log), cache
the promise handle immediately — there is no `await` between the cache read
and the cache write, so in Node's cooperative model this whole step is
atomic — and return it.  (The recency bookkeeping that `lru-cache` performs
on `get` only affects which entry an over-capacity `set` evicts; it is not
modelled.) -/
def loadOutfitDataWithCaching (id : String) (c : OutfitDataCache) :
    Nat × OutfitDataCache :=
  match lruCacheGet id c.entries with
  | some h => (h, c)
  | none =>
    (c.nextHandle,
     { entries := lruCacheSet id c.nextHandle c.entries,
       nextHandle := c.nextHandle + 1,
       fetchLog := c.fetchLog ++ [id] })

/-- `n` concurrent callers for the same id: since each call's cache section
is atomic, any concurrent schedule is a sequence of the atomic sections. -/
def runConcurrentCallers (id : String) :
    Nat → OutfitDataCache → List Nat × OutfitDataCache
  | 0, c => ([], c)
  | n + 1, c =>
    let r1 := loadOutfitDataWithCaching id c
    let rest := runConcurrentCallers id n r1.2
    (r1.1 :: rest.1, rest.2)

/-- The eventual result a promise handle settles to. -/
inductive FetchOutcome where
  | success (payload : Nat)
  | failure (errors : List String)
deriving DecidableEq, Repr

/-- The batch driver's mutable state in `main` (build-db): the resumption
cursor and the counters/failure list the loop accumulates. -/
structure BatchState where
  lastKey : Option String
  numKeys : Nat
  numImageKeys : Nat
  numImageKeyNoOps : Nat
  numImageBackupKeys : Nat
  backupFailures : List (String × String)
deriving DecidableEq, Repr

/-- Lexicographic (bytewise) comparison of keys, the order S3 lists in. -/
def charListLt : List Char → List Char → Bool
  | [], [] => false
  | [], _ :: _ => true
  | _ :: _, [] => false
  | a :: as, b :: bs =>
    if a < b then true
    else if b < a then false
    else charListLt as bs

def strLt (a b : String) : Bool := charListLt a.data b.data

/-- `getImageKeys(s3, startAfter)`: `listObjectsV2` with `MaxKeys: 1000`,
`Prefix: "outfits/"`, `StartAfter: startAfter`, mapped to the keys.  The
object-store collaborator is modelled by its interface: given the bucket as
the sorted list of all keys, it returns up to 1000 keys that carry the
prefix and sort strictly after the cursor. -/
def getImageKeys (bucket : List String) (startAfter : Option String) :
    List String :=
  (bucket.filter (fun k =>
    "outfits/".data.isPrefixOf k.data &&
    match startAfter with
    | none => true
    | some c => strLt c k)).take 1000

/-- One worker-pool pass (`PromisePool(backupImagePromiseProducer, ...)`):
items are claimed one at a time from the shared index until exhausted; an
`ok false` outcome bumps the no-op counter, an error is caught at the pool
boundary and appended to the failure list with its key.  The counters and
the failure set commute across worker interleavings, so the sequential
claim order represents any schedule. -/
def runPool (worker : String → Except String Bool) :
    List String → BatchState → BatchState
  | [], st => st
  | k :: rest, st =>
    match worker k with
    | .ok true => runPool worker rest st
    | .ok false =>
      runPool worker rest
        { st with numImageKeyNoOps := st.numImageKeyNoOps + 1 }
    | .error e =>
      runPool worker rest
        { st with backupFailures := st.backupFailures ++ [(k, e)] }

/-- The body of one iteration of `main`'s page loop, after a nonempty page
`keys` was fetched: bump the page counters, run the pool over the page's
`.png` keys, and only then set the cursor to the page's last key. -/
def processPage (worker : String → Except String Bool) (keys : List String)
    (st : BatchState) : BatchState :=
  let imageKeys := keys.filter (fun k => ".png".data.isSuffixOf k.data)
  let imageBackupKeys :=
    keys.filter (fun k => ".png.bkup".data.isSuffixOf k.data)
  let st1 := { st with
    numKeys := st.numKeys + keys.length,
    numImageKeys := st.numImageKeys + imageKeys.length,
    numImageBackupKeys := st.numImageBackupKeys + imageBackupKeys.length }
  let st2 := runPool worker imageKeys st1
  { st2 with lastKey := keys.getLast? }

/-- `main`'s page loop: fetch a page with up to 10 retries; if even the
retries fail, stop the whole run with result code 1; if the page is empty,
break out with result code 0; otherwise process the page and continue.
`fuel` bounds the recursion; `none` means the fuel ran out before the loop
finished. -/
def mainLoop (lister : Option String → Nat → Except String (List String))
    (worker : String → Except String Bool) :
    Nat → BatchState → Option (BatchState × Nat)
  | 0, _ => none
  | fuel + 1, st =>
    match (promiseRetry (lister st.lastKey) 10).1 with
    | .error _ => some (st, 1)
    | .ok keys =>
      if keys.isEmpty then some (st, 0)
      else mainLoop lister worker fuel (processPage worker keys st)

/-- An infallible lister backed by a bucket snapshot. -/
def pureLister (bucket : List String) :
    Option String → Nat → Except String (List String) :=
  fun c _ => .ok (getImageKeys bucket c)

def c7Bucket : List String :=
  ["outfits/000/000/001/preview.png", "outfits/000/000/001/preview.png.bkup"]

def c7St0 : BatchState := ⟨none, 0, 0, 0, 0, []⟩

def c7Worker : String → Except String Bool := fun _ => .ok true

def c8Worker : String → Except String Bool :=
  fun k => if k = "b.png" then .error "boom" else .ok false

/-! For the key/outfit-id string manipulation, JavaScript strings are
modelled as their character lists. -/

def digitChars : List Char := ['0', '1', '2', '3', '4', '5', '6', '7', '8', '9']

def isDigitChar (c : Char) : Bool := digitChars.contains c

def charToDigit (c : Char) : Nat :=
  if c = '1' then 1 else if c = '2' then 2 else if c = '3' then 3
  else if c = '4' then 4 else if c = '5' then 5 else if c = '6' then 6
  else if c = '7' then 7 else if c = '8' then 8 else if c = '9' then 9
  else 0

def digitToChar (d : Nat) : Char :=
  if d = 1 then '1' else if d = 2 then '2' else if d = 3 then '3'
  else if d = 4 then '4' else if d = 5 then '5' else if d = 6 then '6'
  else if d = 7 then '7' else if d = 8 then '8' else if d = 9 then '9'
  else '0'

/-- `Number(str)` for a string of decimal digits: Horner evaluation, most
significant digit first. -/
def numberOfDigits (l : List Char) : Nat :=
  l.foldl (fun a c => 10 * a + charToDigit c) 0

/-- Little-endian decimal digits with explicit fuel (`fuel ≥ n` suffices). -/
def natDigitsLE (fuel n : Nat) : List Nat :=
  match fuel with
  | 0 => []
  | f + 1 => if n = 0 then [] else (n % 10) :: natDigitsLE f (n / 10)

/-- `String(n)` for a natural number: decimal, no leading zeros. -/
def natToDigits (n : Nat) : List Char :=
  if n = 0 then ['0'] else ((natDigitsLE n n).reverse.map digitToChar)

/-- JavaScript `str.split(sep)` on character lists (single-char separator). -/
def splitOnChar (sep : Char) : List Char → List (List Char)
  | [] => [[]]
  | c :: rest =>
    if c = sep then [] :: splitOnChar sep rest
    else
      match splitOnChar sep rest with
      | [] => [[c]]
      | h :: t => (c :: h) :: t

/-- `outfitId.padStart(9, "0")`. -/
def padStart9 (l : List Char) : List Char :=
  List.replicate (9 - l.length) '0' ++ l

/-- The key built by `main` in backup-image:
`outfits/<pid[0:3]>/<pid[3:6]>/<pid[6:9]>/<filename>` where `pid` is the
outfit id zero-padded to nine characters. -/
def buildOutfitKey (outfitId filename : List Char) : List Char :=
  "outfits".data ++ '/' :: (padStart9 outfitId).take 3
    ++ '/' :: ((padStart9 outfitId).drop 3).take 3
    ++ '/' :: ((padStart9 outfitId).drop 6).take 3
    ++ '/' :: filename

/-- The id extraction in `backupImageWithRetries` (build-db):
`String(Number(key.split("/").slice(1, 4).join("")))`. -/
def extractOutfitId (key : List Char) : List Char :=
  natToDigits (numberOfDigits (((splitOnChar '/' key).drop 1).take 3).flatten)

/-- `parseS3Key` (build-db): the anchored regex
`^outfits/([0-9]{3})/([0-9]{3})/([0-9]{3})/(small_preview|medium_preview|preview)\.png$`
expressed structurally — the key must split on `/` into exactly the literal
`outfits`, three 3-digit segments and a recognized filename — followed by
`Number(seg1 + seg2 + seg3)` and the filename-to-size map. -/
def parseS3Key (key : List Char) : Option (Nat × Nat) :=
  match splitOnChar '/' key with
  | [o, a, b, c, f] =>
    if o = "outfits".data
        ∧ a.length = 3 ∧ a.all isDigitChar
        ∧ b.length = 3 ∧ b.all isDigitChar
        ∧ c.length = 3 ∧ c.all isDigitChar then
      match (if f = "small_preview.png".data then some 150
             else if f = "medium_preview.png".data then some 300
             else if f = "preview.png".data then some 600
             else none : Option Nat) with
      | some size => some (numberOfDigits (a ++ b ++ c), size)
      | none => none
    else none
  | _ => none

theorem setObj_self (s : Store) (k : String) (o : S3Object) :
    setObj s k o k = some o := by
  simp [setObj]

theorem setObj_other (s : Store) (k k' : String) (o : S3Object) (h : k' ≠ k) :
    setObj s k o k' = s k' := by
  simp [setObj, h]

/-- A key differs from its derived backup key (they have different lengths). -/
theorem key_ne_backupKey (key : String) : key ≠ key ++ ".bkup" := by
  intro h
  have hlen := congrArg String.length h
  simp [String.length_append] at hlen
  exact absurd hlen (by decide)

theorem replace_preserves_other (force : Bool) (s : Store) (key : String)
    (tagging : Option (Option String))
    (imgs : Except String (List Nat × List Nat)) (k' : String)
    (h : k' ≠ key) :
    (replaceOriginalIfNotAlreadyDone force s key tagging imgs).1 k' = s k' := by
  unfold replaceOriginalIfNotAlreadyDone
  cases replaceGate force tagging with
  | error e => rfl
  | ok tr =>
    cases tr with
    | Proceed =>
      cases imgs with
      | error e => rfl
      | ok p =>
        obtain ⟨orig, comp⟩ := p
        by_cases hcmp : comp.length > orig.length
        · simp only [hcmp, if_pos]
          cases s key with
          | none => rfl
          | some o => simp [setObj, h]
        · simp only [hcmp, if_neg]
          simp [setObj, h]
    | SkipAlreadyDone => rfl
    | SkipUnexpectedTag => rfl
    | SkipPriorFailure => rfl

theorem snapshot_preserves_other (force : Bool) (s : Store)
    (key backupKey : String) (bt : Option (Option String)) (k' : String)
    (h : k' ≠ backupKey) :
    (saveBackupIfNotAlreadyDone force s key backupKey bt).1 k' = s k' := by
  unfold saveBackupIfNotAlreadyDone
  cases snapshotGate force bt with
  | Proceed =>
    cases s key with
    | none => rfl
    | some o => simp [setObj, h]
  | SkipAlreadyDone => rfl
  | SkipUnexpectedTag => rfl
  | SkipPriorFailure => rfl

/-- Claim C1, amended: unconditionally — including the unexpected-tag skip
states of the counterexample — the snapshot stage settles before any
replace-stage mutation: the backup key's final state is exactly what the
snapshot stage left, the replace stage never touches it.  And, provided the
snapshot gate does not skip for an unexpected tag (force set, or backup key
absent, or backup key already tagged `backup`), whenever the original key's
final tag is `compressed` or `compression-failed` the backup key is tagged
`backup`. -/
theorem c1_amended (force : Bool) (s : Store) (key : String)
    (imgs : Except String (List Nat × List Nat)) :
    ((backupImage force s key imgs).1 (key ++ ".bkup") =
      (saveBackupIfNotAlreadyDone force s key (key ++ ".bkup")
        (loadImageTagging s (key ++ ".bkup"))).1 (key ++ ".bkup")) ∧
    ((force = true ∨ loadImageTagging s (key ++ ".bkup") = none ∨
      loadImageTagging s (key ++ ".bkup") = some (some "backup")) →
     ∀ t, loadImageTagging (backupImage force s key imgs).1 key
            = some (some t) →
          (t = "compressed" ∨ t = "compression-failed") →
          loadImageTagging (backupImage force s key imgs).1 (key ++ ".bkup")
            = some (some "backup")) := by
  have hne : key ≠ key ++ ".bkup" := key_ne_backupKey key
  constructor
  · -- ordering/frame part: the backup key's final state is the snapshot stage's
    unfold backupImage
    cases hs : loadImageTagging s key with
    | none =>
      -- original missing: both sides leave the backup key as it was
      simp only []
      unfold saveBackupIfNotAlreadyDone
      cases snapshotGate force (loadImageTagging s (key ++ ".bkup")) with
      | Proceed =>
        have : s key = none := by
          unfold loadImageTagging at hs
          cases h' : s key with
          | none => rfl
          | some o => rw [h'] at hs; simp at hs
        rw [this]
      | SkipAlreadyDone => rfl
      | SkipUnexpectedTag => rfl
      | SkipPriorFailure => rfl
    | some tv =>
      simp only []
      cases hsb : saveBackupIfNotAlreadyDone force s key (key ++ ".bkup")
          (loadImageTagging s (key ++ ".bkup")) with
      | mk s1 r1 =>
        cases r1 with
        | error e => rfl
        | ok didSave =>
          cases hr : replaceOriginalIfNotAlreadyDone force s1 key (some tv) imgs with
          | mk s2 r2 =>
            have hframe : s2 (key ++ ".bkup") = s1 (key ++ ".bkup") := by
              have := replace_preserves_other force s1 key (some tv) imgs
                (key ++ ".bkup") (Ne.symm hne)
              rw [hr] at this; simpa using this
            cases r2 with
            | error e => simp only [hr]; exact hframe
            | ok d2 => simp only [hr]; exact hframe
  · intro hsafe t hfinal htv
    cases hs : s key with
    | none =>
      unfold backupImage at hfinal
      simp [loadImageTagging, hs] at hfinal
    | some o =>
      have hlt : loadImageTagging s key = some o.kindTag := by
        simp [loadImageTagging, hs]
      cases hg : snapshotGate force (loadImageTagging s (key ++ ".bkup")) with
      | Proceed =>
        -- backup copy happens; the replace stage never touches the backup key
        unfold backupImage
        simp only [hlt]
        unfold saveBackupIfNotAlreadyDone
        simp only [hg, hs]
        cases hr : replaceOriginalIfNotAlreadyDone force
            (setObj s (key ++ ".bkup") ⟨o.body, some "backup", .GLACIER⟩) key
            (some o.kindTag) imgs with
        | mk s2 r2 =>
          have hframe : s2 (key ++ ".bkup")
              = some ⟨o.body, some "backup", .GLACIER⟩ := by
            have := replace_preserves_other force
              (setObj s (key ++ ".bkup") ⟨o.body, some "backup", .GLACIER⟩)
              key (some o.kindTag) imgs (key ++ ".bkup")
              (Ne.symm (key_ne_backupKey key))
            rw [hr] at this
            simpa [setObj_self] using this
          cases r2 with
          | error e => simp [loadImageTagging, hframe]
          | ok d2 => simp [loadImageTagging, hframe]
      | SkipAlreadyDone =>
        -- only reachable when the backup key is already tagged `backup`
        have hbk : loadImageTagging s (key ++ ".bkup") = some (some "backup") := by
          rcases hsafe with hf | hn | hb
          · rw [hf] at hg; simp [snapshotGate] at hg
          · rw [hn] at hg; simp [snapshotGate] at hg
          · exact hb
        unfold backupImage
        simp only [hlt]
        unfold saveBackupIfNotAlreadyDone
        simp only [hg]
        cases hr : replaceOriginalIfNotAlreadyDone force s key
            (some o.kindTag) imgs with
        | mk s2 r2 =>
          have hframe : s2 (key ++ ".bkup") = s (key ++ ".bkup") := by
            have := replace_preserves_other force s key (some o.kindTag) imgs
              (key ++ ".bkup") (Ne.symm (key_ne_backupKey key))
            rw [hr] at this; simpa using this
          have : loadImageTagging s2 (key ++ ".bkup") = some (some "backup") := by
            unfold loadImageTagging at hbk ⊢
            rw [hframe]; exact hbk
          cases r2 with
          | error e => simpa using this
          | ok d2 => simpa using this
      | SkipUnexpectedTag =>
        exfalso
        rcases hsafe with hf | hn | hb
        · rw [hf] at hg; simp [snapshotGate] at hg
        · rw [hn] at hg; simp [snapshotGate] at hg
        · rw [hb] at hg; simp [snapshotGate] at hg
          split at hg <;> simp_all
      | SkipPriorFailure =>
        exfalso
        unfold snapshotGate at hg
        split at hg
        · simp at hg
        · split at hg
          · simp at hg
          · split at hg <;> simp_all

theorem snapshotGate_ne_prior (force : Bool) (bt : Option (Option String)) :
    snapshotGate force bt ≠ .SkipPriorFailure := by
  unfold snapshotGate
  split
  · simp
  · match bt with
    | none => simp
    | some t => by_cases h : t = some "backup" <;> simp [h]

theorem backupImage_skips (s : Store) (key : String)
    (imgs : Except String (List Nat × List Nat)) (o : S3Object)
    (hs : s key = some o)
    (hg : snapshotGate false (loadImageTagging s (key ++ ".bkup")) ≠ .Proceed)
    (tr : Transition)
    (htr : replaceGate false (some o.kindTag) = .ok tr)
    (hne : tr ≠ .Proceed) :
    backupImage false s key imgs = (s, .ok false) := by
  unfold backupImage
  have hlt : loadImageTagging s key = some o.kindTag := by
    simp [loadImageTagging, hs]
  simp only [hlt]
  unfold saveBackupIfNotAlreadyDone
  cases hg2 : snapshotGate false (loadImageTagging s (key ++ ".bkup")) with
  | Proceed => exact absurd hg2 hg
  | SkipPriorFailure => exact absurd hg2 (snapshotGate_ne_prior _ _)
  | SkipAlreadyDone =>
    unfold replaceOriginalIfNotAlreadyDone
    rw [htr]
    cases tr with
    | Proceed => exact absurd rfl hne
    | SkipAlreadyDone => rfl
    | SkipUnexpectedTag => rfl
    | SkipPriorFailure => rfl
  | SkipUnexpectedTag =>
    unfold replaceOriginalIfNotAlreadyDone
    rw [htr]
    cases tr with
    | Proceed => exact absurd rfl hne
    | SkipAlreadyDone => rfl
    | SkipUnexpectedTag => rfl
    | SkipPriorFailure => rfl

/-- Claim C4: running `backupImage` a second time on the same key with
force off and no intervening external state change returns
`madeChange = false` and leaves every stored object and tag identical to
the state after the first (successful) run. -/
theorem c4_idempotent (s : Store) (key : String)
    (imgs : Except String (List Nat × List Nat)) (b : Bool)
    (h : (backupImage false s key imgs).2 = .ok b) :
    backupImage false (backupImage false s key imgs).1 key imgs
      = ((backupImage false s key imgs).1, .ok false) := by
  have hne : key ≠ key ++ ".bkup" := key_ne_backupKey key
  cases hs : s key with
  | none =>
    unfold backupImage at h
    simp [loadImageTagging, hs] at h
  | some o =>
    have hlt : loadImageTagging s key = some o.kindTag := by
      simp [loadImageTagging, hs]
    -- notation for the run
    cases hg : snapshotGate false (loadImageTagging s (key ++ ".bkup")) with
    | SkipPriorFailure => exact absurd hg (snapshotGate_ne_prior _ _)
    | Proceed =>
      -- the snapshot stage writes the backup
      have hrun1 :
          backupImage false s key imgs =
          (match replaceOriginalIfNotAlreadyDone false
              (setObj s (key ++ ".bkup") ⟨o.body, some "backup", .GLACIER⟩)
              key (some o.kindTag) imgs with
           | (s2, .error e) => (s2, .error e)
           | (s2, .ok d2) => (s2, .ok (true || d2))) := by
        unfold backupImage
        simp only [hlt]
        unfold saveBackupIfNotAlreadyDone
        simp only [hg, hs]
      set s1 := setObj s (key ++ ".bkup") ⟨o.body, some "backup", .GLACIER⟩
        with hs1def
      have hs1key : s1 key = some o := by
        rw [hs1def, setObj_other _ _ _ _ hne, hs]
      have hs1bk : s1 (key ++ ".bkup")
          = some ⟨o.body, some "backup", .GLACIER⟩ := by
        rw [hs1def, setObj_self]
      cases hrg : replaceGate false (some o.kindTag) with
      | error e =>
        rw [hrun1] at h
        unfold replaceOriginalIfNotAlreadyDone at h
        rw [hrg] at h
        simp at h
      | ok tr =>
        cases tr with
        | Proceed =>
          cases himgs : imgs with
          | error e =>
            rw [hrun1] at h
            unfold replaceOriginalIfNotAlreadyDone at h
            rw [hrg, himgs] at h
            simp at h
          | ok p =>
            obtain ⟨orig, comp⟩ := p
            subst himgs
            by_cases hcmp : comp.length > orig.length
            · -- compression-failed write
              have hrepl : replaceOriginalIfNotAlreadyDone false s1 key
                  (some o.kindTag) (.ok (orig, comp)) =
                  (setObj s1 key ⟨o.body, some "compression-failed",
                    .STANDARD_IA⟩, .ok true) := by
                unfold replaceOriginalIfNotAlreadyDone
                rw [hrg]
                simp only [hcmp, if_pos, hs1key]
              rw [hrun1, hrepl]
              set s2 := setObj s1 key
                ⟨o.body, some "compression-failed", .STANDARD_IA⟩ with hs2def
              have h2key : s2 key
                  = some ⟨o.body, some "compression-failed", .STANDARD_IA⟩ := by
                rw [hs2def, setObj_self]
              have h2bk : s2 (key ++ ".bkup")
                  = some ⟨o.body, some "backup", .GLACIER⟩ := by
                rw [hs2def, setObj_other _ _ _ _ (Ne.symm hne), hs1bk]
              exact backupImage_skips s2 key (.ok (orig, comp)) _ h2key
                (by simp [loadImageTagging, h2bk, snapshotGate])
                .SkipPriorFailure (by simp [replaceGate]) (by simp)
            · -- compressed write
              have hrepl : replaceOriginalIfNotAlreadyDone false s1 key
                  (some o.kindTag) (.ok (orig, comp)) =
                  (setObj s1 key ⟨comp, some "compressed", .STANDARD_IA⟩,
                   .ok true) := by
                unfold replaceOriginalIfNotAlreadyDone
                rw [hrg]
                simp only [hcmp, if_neg]
                simp
              rw [hrun1, hrepl]
              set s2 := setObj s1 key ⟨comp, some "compressed", .STANDARD_IA⟩
                with hs2def
              have h2key : s2 key
                  = some ⟨comp, some "compressed", .STANDARD_IA⟩ := by
                rw [hs2def, setObj_self]
              have h2bk : s2 (key ++ ".bkup")
                  = some ⟨o.body, some "backup", .GLACIER⟩ := by
                rw [hs2def, setObj_other _ _ _ _ (Ne.symm hne), hs1bk]
              exact backupImage_skips s2 key (.ok (orig, comp)) _ h2key
                (by simp [loadImageTagging, h2bk, snapshotGate])
                .SkipAlreadyDone (by simp [replaceGate]) (by simp)
        | SkipAlreadyDone =>
          have hrepl : replaceOriginalIfNotAlreadyDone false s1 key
              (some o.kindTag) imgs = (s1, .ok false) := by
            unfold replaceOriginalIfNotAlreadyDone
            rw [hrg]
          rw [hrun1, hrepl]
          exact backupImage_skips s1 key imgs o hs1key
            (by simp [loadImageTagging, hs1bk, snapshotGate])
            .SkipAlreadyDone hrg (by simp)
        | SkipUnexpectedTag =>
          have hrepl : replaceOriginalIfNotAlreadyDone false s1 key
              (some o.kindTag) imgs = (s1, .ok false) := by
            unfold replaceOriginalIfNotAlreadyDone
            rw [hrg]
          rw [hrun1, hrepl]
          exact backupImage_skips s1 key imgs o hs1key
            (by simp [loadImageTagging, hs1bk, snapshotGate])
            .SkipUnexpectedTag hrg (by simp)
        | SkipPriorFailure =>
          have hrepl : replaceOriginalIfNotAlreadyDone false s1 key
              (some o.kindTag) imgs = (s1, .ok false) := by
            unfold replaceOriginalIfNotAlreadyDone
            rw [hrg]
          rw [hrun1, hrepl]
          exact backupImage_skips s1 key imgs o hs1key
            (by simp [loadImageTagging, hs1bk, snapshotGate])
            .SkipPriorFailure hrg (by simp)
    | SkipAlreadyDone =>
      have hrun1 :
          backupImage false s key imgs =
          (match replaceOriginalIfNotAlreadyDone false s key
              (some o.kindTag) imgs with
           | (s2, .error e) => (s2, .error e)
           | (s2, .ok d2) => (s2, .ok (false || d2))) := by
        unfold backupImage
        simp only [hlt]
        unfold saveBackupIfNotAlreadyDone
        simp only [hg]
      cases hrg : replaceGate false (some o.kindTag) with
      | error e =>
        rw [hrun1] at h
        unfold replaceOriginalIfNotAlreadyDone at h
        rw [hrg] at h
        simp at h
      | ok tr =>
        cases tr with
        | Proceed =>
          cases himgs : imgs with
          | error e =>
            rw [hrun1] at h
            unfold replaceOriginalIfNotAlreadyDone at h
            rw [hrg, himgs] at h
            simp at h
          | ok p =>
            obtain ⟨orig, comp⟩ := p
            subst himgs
            by_cases hcmp : comp.length > orig.length
            · have hrepl : replaceOriginalIfNotAlreadyDone false s key
                  (some o.kindTag) (.ok (orig, comp)) =
                  (setObj s key ⟨o.body, some "compression-failed",
                    .STANDARD_IA⟩, .ok true) := by
                unfold replaceOriginalIfNotAlreadyDone
                rw [hrg]
                simp only [hcmp, if_pos, hs]
              rw [hrun1, hrepl]
              set s2 := setObj s key
                ⟨o.body, some "compression-failed", .STANDARD_IA⟩ with hs2def
              have h2key : s2 key
                  = some ⟨o.body, some "compression-failed", .STANDARD_IA⟩ := by
                rw [hs2def, setObj_self]
              have h2bk : s2 (key ++ ".bkup") = s (key ++ ".bkup") := by
                rw [hs2def, setObj_other _ _ _ _ (Ne.symm hne)]
              exact backupImage_skips s2 key (.ok (orig, comp)) _ h2key
                (by rw [show loadImageTagging s2 (key ++ ".bkup")
                        = loadImageTagging s (key ++ ".bkup") by
                      simp [loadImageTagging, h2bk]]
                    rw [hg]; simp)
                .SkipPriorFailure (by simp [replaceGate]) (by simp)
            · have hrepl : replaceOriginalIfNotAlreadyDone false s key
                  (some o.kindTag) (.ok (orig, comp)) =
                  (setObj s key ⟨comp, some "compressed", .STANDARD_IA⟩,
                   .ok true) := by
                unfold replaceOriginalIfNotAlreadyDone
                rw [hrg]
                simp only [hcmp, if_neg]
                simp
              rw [hrun1, hrepl]
              set s2 := setObj s key ⟨comp, some "compressed", .STANDARD_IA⟩
                with hs2def
              have h2key : s2 key
                  = some ⟨comp, some "compressed", .STANDARD_IA⟩ := by
                rw [hs2def, setObj_self]
              have h2bk : s2 (key ++ ".bkup") = s (key ++ ".bkup") := by
                rw [hs2def, setObj_other _ _ _ _ (Ne.symm hne)]
              exact backupImage_skips s2 key (.ok (orig, comp)) _ h2key
                (by rw [show loadImageTagging s2 (key ++ ".bkup")
                        = loadImageTagging s (key ++ ".bkup") by
                      simp [loadImageTagging, h2bk]]
                    rw [hg]; simp)
                .SkipAlreadyDone (by simp [replaceGate]) (by simp)
        | SkipAlreadyDone =>
          have hrepl : replaceOriginalIfNotAlreadyDone false s key
              (some o.kindTag) imgs = (s, .ok false) := by
            unfold replaceOriginalIfNotAlreadyDone
            rw [hrg]
          rw [hrun1, hrepl]
          exact backupImage_skips s key imgs o hs
            (by rw [hg]; simp) .SkipAlreadyDone hrg (by simp)
        | SkipUnexpectedTag =>
          have hrepl : replaceOriginalIfNotAlreadyDone false s key
              (some o.kindTag) imgs = (s, .ok false) := by
            unfold replaceOriginalIfNotAlreadyDone
            rw [hrg]
          rw [hrun1, hrepl]
          exact backupImage_skips s key imgs o hs
            (by rw [hg]; simp) .SkipUnexpectedTag hrg (by simp)
        | SkipPriorFailure =>
          have hrepl : replaceOriginalIfNotAlreadyDone false s key
              (some o.kindTag) imgs = (s, .ok false) := by
            unfold replaceOriginalIfNotAlreadyDone
            rw [hrg]
          rw [hrun1, hrepl]
          exact backupImage_skips s key imgs o hs
            (by rw [hg]; simp) .SkipPriorFailure hrg (by simp)
    | SkipUnexpectedTag =>
      have hrun1 :
          backupImage false s key imgs =
          (match replaceOriginalIfNotAlreadyDone false s key
              (some o.kindTag) imgs with
           | (s2, .error e) => (s2, .error e)
           | (s2, .ok d2) => (s2, .ok (false || d2))) := by
        unfold backupImage
        simp only [hlt]
        unfold saveBackupIfNotAlreadyDone
        simp only [hg]
      cases hrg : replaceGate false (some o.kindTag) with
      | error e =>
        rw [hrun1] at h
        unfold replaceOriginalIfNotAlreadyDone at h
        rw [hrg] at h
        simp at h
      | ok tr =>
        cases tr with
        | Proceed =>
          cases himgs : imgs with
          | error e =>
            rw [hrun1] at h
            unfold replaceOriginalIfNotAlreadyDone at h
            rw [hrg, himgs] at h
            simp at h
          | ok p =>
            obtain ⟨orig, comp⟩ := p
            subst himgs
            by_cases hcmp : comp.length > orig.length
            · have hrepl : replaceOriginalIfNotAlreadyDone false s key
                  (some o.kindTag) (.ok (orig, comp)) =
                  (setObj s key ⟨o.body, some "compression-failed",
                    .STANDARD_IA⟩, .ok true) := by
                unfold replaceOriginalIfNotAlreadyDone
                rw [hrg]
                simp only [hcmp, if_pos, hs]
              rw [hrun1, hrepl]
              set s2 := setObj s key
                ⟨o.body, some "compression-failed", .STANDARD_IA⟩ with hs2def
              have h2key : s2 key
                  = some ⟨o.body, some "compression-failed", .STANDARD_IA⟩ := by
                rw [hs2def, setObj_self]
              have h2bk : s2 (key ++ ".bkup") = s (key ++ ".bkup") := by
                rw [hs2def, setObj_other _ _ _ _ (Ne.symm hne)]
              exact backupImage_skips s2 key (.ok (orig, comp)) _ h2key
                (by rw [show loadImageTagging s2 (key ++ ".bkup")
                        = loadImageTagging s (key ++ ".bkup") by
                      simp [loadImageTagging, h2bk]]
                    rw [hg]; simp)
                .SkipPriorFailure (by simp [replaceGate]) (by simp)
            · have hrepl : replaceOriginalIfNotAlreadyDone false s key
                  (some o.kindTag) (.ok (orig, comp)) =
                  (setObj s key ⟨comp, some "compressed", .STANDARD_IA⟩,
                   .ok true) := by
                unfold replaceOriginalIfNotAlreadyDone
                rw [hrg]
                simp only [hcmp, if_neg]
                simp
              rw [hrun1, hrepl]
              set s2 := setObj s key ⟨comp, some "compressed", .STANDARD_IA⟩
                with hs2def
              have h2key : s2 key
                  = some ⟨comp, some "compressed", .STANDARD_IA⟩ := by
                rw [hs2def, setObj_self]
              have h2bk : s2 (key ++ ".bkup") = s (key ++ ".bkup") := by
                rw [hs2def, setObj_other _ _ _ _ (Ne.symm hne)]
              exact backupImage_skips s2 key (.ok (orig, comp)) _ h2key
                (by rw [show loadImageTagging s2 (key ++ ".bkup")
                        = loadImageTagging s (key ++ ".bkup") by
                      simp [loadImageTagging, h2bk]]
                    rw [hg]; simp)
                .SkipAlreadyDone (by simp [replaceGate]) (by simp)
        | SkipAlreadyDone =>
          have hrepl : replaceOriginalIfNotAlreadyDone false s key
              (some o.kindTag) imgs = (s, .ok false) := by
            unfold replaceOriginalIfNotAlreadyDone
            rw [hrg]
          rw [hrun1, hrepl]
          exact backupImage_skips s key imgs o hs
            (by rw [hg]; simp) .SkipAlreadyDone hrg (by simp)
        | SkipUnexpectedTag =>
          have hrepl : replaceOriginalIfNotAlreadyDone false s key
              (some o.kindTag) imgs = (s, .ok false) := by
            unfold replaceOriginalIfNotAlreadyDone
            rw [hrg]
          rw [hrun1, hrepl]
          exact backupImage_skips s key imgs o hs
            (by rw [hg]; simp) .SkipUnexpectedTag hrg (by simp)
        | SkipPriorFailure =>
          have hrepl : replaceOriginalIfNotAlreadyDone false s key
              (some o.kindTag) imgs = (s, .ok false) := by
            unfold replaceOriginalIfNotAlreadyDone
            rw [hrg]
          rw [hrun1, hrepl]
          exact backupImage_skips s key imgs o hs
            (by rw [hg]; simp) .SkipPriorFailure hrg (by simp)

/-- Claim C2: in the replace stage, when the gate proceeds, a compressed
variant strictly larger than the rendered original writes no new bytes —
the original key keeps its body, only its tag becomes `compression-failed`
and its storage class `STANDARD_IA` — while a compressed variant of at most
the original size is written to the original key with tag `compressed`. -/
theorem c2_nonregression (force : Bool) (s : Store) (key : String)
    (tagging : Option (Option String)) (orig comp : List Nat) (o : S3Object)
    (hgate : replaceGate force tagging = .ok .Proceed)
    (hkey : s key = some o) :
    (comp.length > orig.length →
      replaceOriginalIfNotAlreadyDone force s key tagging (.ok (orig, comp))
        = (setObj s key ⟨o.body, some "compression-failed", .STANDARD_IA⟩,
           .ok true)) ∧
    (comp.length ≤ orig.length →
      replaceOriginalIfNotAlreadyDone force s key tagging (.ok (orig, comp))
        = (setObj s key ⟨comp, some "compressed", .STANDARD_IA⟩, .ok true)) := by
  unfold replaceOriginalIfNotAlreadyDone
  rw [hgate]
  constructor
  · intro hcmp
    simp only [hcmp, if_pos, hkey]
  · intro hle
    have : ¬ (comp.length > orig.length) := Nat.not_lt.mpr hle
    simp only [this, if_neg]
    simp

/-- Claim C5, counterexample: with the force-override flag a later run
does overwrite an existing backup key — `saveBackupIfNotAlreadyDone` skips
its tag check under `--force` and reissues the copy, replacing the backup's
bytes with the original's current bytes. -/
theorem c5_counterexample :
    c5Store ("outfits/000/000/001/preview.png" ++ ".bkup")
      = some ⟨[7], some "backup", .GLACIER⟩ ∧
    (backupImage true c5Store "outfits/000/000/001/preview.png"
        (.ok ([5], [6, 6]))).1 ("outfits/000/000/001/preview.png" ++ ".bkup")
      ≠ c5Store ("outfits/000/000/001/preview.png" ++ ".bkup") := by
  decide

/-- Claim C5, amended: for runs without the force-override flag, once the
backup object exists it is never overwritten — the run leaves it exactly as
it was — and only the original key itself is ever rewritten. -/
theorem c5_amended (s : Store) (key : String)
    (imgs : Except String (List Nat × List Nat)) (o : S3Object)
    (h : s (key ++ ".bkup") = some o) :
    ((backupImage false s key imgs).1 (key ++ ".bkup") = some o) ∧
    (∀ k', k' ≠ key → (backupImage false s key imgs).1 k' = s k') := by
  have hframe : ∀ k', k' ≠ key → (backupImage false s key imgs).1 k' = s k' := by
    intro k' hk'
    unfold backupImage
    cases hlt : loadImageTagging s key with
    | none => rfl
    | some tv =>
      have hskip : saveBackupIfNotAlreadyDone false s key (key ++ ".bkup")
          (loadImageTagging s (key ++ ".bkup")) = (s, .ok false) := by
        unfold saveBackupIfNotAlreadyDone snapshotGate
        simp only [loadImageTagging, h, Option.map_some]
        by_cases hb : o.kindTag = some "backup" <;> simp [hb]
      simp only [hskip]
      cases hr : replaceOriginalIfNotAlreadyDone false s key (some tv) imgs with
      | mk s2 r2 =>
        have := replace_preserves_other false s key (some tv) imgs k' hk'
        rw [hr] at this
        cases r2 with
        | error e => simpa using this
        | ok d2 => simpa using this
  exact ⟨by rw [hframe _ (Ne.symm (key_ne_backupKey key))]; exact h, hframe⟩

/-- Claim C1, counterexample: from a store whose backup key carries a
foreign tag, a successful run leaves the original tagged `compressed` while
no `backup`-tagged backup key exists — `saveBackupIfNotAlreadyDone` skipped
for the unexpected tag, yet the replace stage proceeded. -/
theorem c1_counterexample :
    (backupImage false c1Store "outfits/000/000/001/preview.png"
        (.ok ([1, 2, 3], [1]))).2 = .ok true ∧
    loadImageTagging (backupImage false c1Store
        "outfits/000/000/001/preview.png" (.ok ([1, 2, 3], [1]))).1
        "outfits/000/000/001/preview.png" = some (some "compressed") ∧
    loadImageTagging (backupImage false c1Store
        "outfits/000/000/001/preview.png" (.ok ([1, 2, 3], [1]))).1
        ("outfits/000/000/001/preview.png" ++ ".bkup")
      ≠ some (some "backup") :=
  ⟨rfl, by decide, by decide⟩

theorem c1_amended_witness :
    ((backupImage false c5Store "outfits/000/000/001/preview.png"
        (.ok ([5], [4]))).1 ("outfits/000/000/001/preview.png" ++ ".bkup") =
      (saveBackupIfNotAlreadyDone false c5Store "outfits/000/000/001/preview.png"
        ("outfits/000/000/001/preview.png" ++ ".bkup")
        (loadImageTagging c5Store
          ("outfits/000/000/001/preview.png" ++ ".bkup"))).1
        ("outfits/000/000/001/preview.png" ++ ".bkup")) ∧
    (∀ t, loadImageTagging (backupImage false c5Store
            "outfits/000/000/001/preview.png" (.ok ([5], [4]))).1
            "outfits/000/000/001/preview.png" = some (some t) →
          (t = "compressed" ∨ t = "compression-failed") →
          loadImageTagging (backupImage false c5Store
            "outfits/000/000/001/preview.png" (.ok ([5], [4]))).1
            ("outfits/000/000/001/preview.png" ++ ".bkup")
            = some (some "backup")) :=
  ⟨(c1_amended false c5Store "outfits/000/000/001/preview.png"
      (.ok ([5], [4]))).1,
   (c1_amended false c5Store "outfits/000/000/001/preview.png"
      (.ok ([5], [4]))).2 (Or.inr (Or.inr (by decide)))⟩

/-- Claim C3, counterexample: the empty string is a present tag value that
is none of `backup`/`compressed`/`compression-failed`, yet the replace-stage
gate yields `Proceed` for it, not `SkipUnexpectedTag` — JavaScript treats
the empty tag value as falsy. -/
theorem c3_counterexample :
    ("" ≠ "backup" ∧ "" ≠ "compressed" ∧ "" ≠ "compression-failed") ∧
    replaceGate false (some (some "")) = .ok .Proceed ∧
    Transition.Proceed ≠ .SkipUnexpectedTag :=
  ⟨by decide, rfl, by decide⟩

/-- Claim C3, amended: over the table `{none, backup, compressed,
compression-failed, unrecognized} x {force, no-force}`, both stage gates
match the spec's table exactly, where the unrecognized representative is any
present tag value other than the three recognized ones and other than the
empty string (which the replace-stage gate treats as no tag). -/
theorem c3_amended (force : Bool) (u : String)
    (h1 : u ≠ "backup") (h2 : u ≠ "compressed")
    (h3 : u ≠ "compression-failed") (h4 : u ≠ "") :
    ∀ tag : SpecTag,
      snapshotGate force (snapshotTagInput tag u)
        = specSnapshotTable force tag ∧
      replaceGate force (replaceTagInput tag u)
        = .ok (specReplaceTable force tag) := by
  intro tag
  cases force <;> cases tag <;>
    simp [snapshotGate, replaceGate, snapshotTagInput, replaceTagInput,
      specSnapshotTable, specReplaceTable, h1, h2, h3, h4]

theorem c3_amended_witness :
    snapshotGate false (snapshotTagInput .tagUnrecognized "mystery")
      = specSnapshotTable false .tagUnrecognized ∧
    replaceGate false (replaceTagInput .tagUnrecognized "mystery")
      = .ok (specReplaceTable false .tagUnrecognized) :=
  c3_amended false "mystery" (by decide) (by decide) (by decide) (by decide)
    .tagUnrecognized

theorem c2_witness :
    (replaceOriginalIfNotAlreadyDone false c5Store
        "outfits/000/000/001/preview.png" (some none) (.ok ([5], [6, 6]))
      = (setObj c5Store "outfits/000/000/001/preview.png"
          ⟨[5], some "compression-failed", .STANDARD_IA⟩, .ok true)) ∧
    (replaceOriginalIfNotAlreadyDone false c5Store
        "outfits/000/000/001/preview.png" (some none) (.ok ([5], [4]))
      = (setObj c5Store "outfits/000/000/001/preview.png"
          ⟨[4], some "compressed", .STANDARD_IA⟩, .ok true)) :=
  ⟨(c2_nonregression false c5Store "outfits/000/000/001/preview.png"
      (some none) [5] [6, 6] ⟨[5], none, .STANDARD⟩ rfl (by decide)).1
      (by decide),
   (c2_nonregression false c5Store "outfits/000/000/001/preview.png"
      (some none) [5] [4] ⟨[5], none, .STANDARD⟩ rfl (by decide)).2
      (by decide)⟩

theorem c4_witness :
    backupImage false
      (backupImage false c5Store "outfits/000/000/001/preview.png"
        (.ok ([5], [4]))).1
      "outfits/000/000/001/preview.png" (.ok ([5], [4]))
    = ((backupImage false c5Store "outfits/000/000/001/preview.png"
        (.ok ([5], [4]))).1, .ok false) :=
  c4_idempotent c5Store "outfits/000/000/001/preview.png" (.ok ([5], [4]))
    true rfl

theorem c5_amended_witness :
    (backupImage false c5Store "outfits/000/000/001/preview.png"
        (.ok ([5], [4]))).1 ("outfits/000/000/001/preview.png" ++ ".bkup")
      = some ⟨[7], some "backup", .GLACIER⟩ ∧
    (backupImage false c5Store "outfits/000/000/001/preview.png"
        (.ok ([5], [4]))).1 "outfits/000/000/002/preview.png"
      = c5Store "outfits/000/000/002/preview.png" :=
  ⟨(c5_amended c5Store "outfits/000/000/001/preview.png" (.ok ([5], [4]))
      ⟨[7], some "backup", .GLACIER⟩ (by decide)).1,
   (c5_amended c5Store "outfits/000/000/001/preview.png" (.ok ([5], [4]))
      ⟨[7], some "backup", .GLACIER⟩ (by decide)).2
      "outfits/000/000/002/preview.png" (by decide)⟩

theorem retryGo_spec (op : Nat → Except String α) :
    ∀ (r a : Nat),
      (retryGo op a r).2.1 ≤ r + 1 ∧
      1 ≤ (retryGo op a r).2.1 ∧
      (retryGo op a r).1 = op (a + (retryGo op a r).2.1 - 1) ∧
      (retryGo op a r).2.2 = (List.range' a (retryGo op a r).2.1).filterMap
        (fun i => match op i with
                  | .error e => some (i, e)
                  | .ok _ => none) ∧
      (∀ i, a ≤ i → i + 1 < a + (retryGo op a r).2.1 →
        ∃ e, op i = .error e) ∧
      ((∀ i, ∃ e, op i = .error e) → (retryGo op a r).2.1 = r + 1) := by
  intro r
  induction r with
  | zero =>
    intro a
    cases hop : op a with
    | ok v =>
      have hred : retryGo op a 0 = (.ok v, 1, []) := by
        unfold retryGo; rw [hop]
      rw [hred]
      refine ⟨by simp, by simp, by simp [hop], ?_, ?_, by simp⟩
      · simp [List.range', hop]
      · intro i hai hlt
        simp at hlt
        omega
    | error e =>
      have hred : retryGo op a 0 = (.error e, 1, [(a, e)]) := by
        unfold retryGo; rw [hop]
      rw [hred]
      refine ⟨by simp, by simp, by simp [hop], ?_, ?_, by simp⟩
      · simp [List.range', hop]
      · intro i hai hlt
        simp at hlt
        omega
  | succ r ih =>
    intro a
    cases hop : op a with
    | ok v =>
      have hred : retryGo op a (r + 1) = (.ok v, 1, []) := by
        unfold retryGo; rw [hop]
      rw [hred]
      refine ⟨by simp, by simp, by simp [hop], ?_, ?_, ?_⟩
      · simp [List.range', hop]
      · intro i hai hlt
        simp at hlt
        omega
      · intro hall
        exfalso
        obtain ⟨e, he⟩ := hall a
        rw [hop] at he
        exact Except.noConfusion he
    | error e =>
      have hred : retryGo op a (r + 1) =
          ((retryGo op (a + 1) r).1, (retryGo op (a + 1) r).2.1 + 1,
           (a, e) :: (retryGo op (a + 1) r).2.2) := by
        conv_lhs => unfold retryGo
        rw [hop]
      rw [hred]
      obtain ⟨hle, hone, hres, hnot, hbefore, hall⟩ := ih (a + 1)
      refine ⟨by simpa using by omega, by simp, ?_, ?_, ?_, ?_⟩
      · simp only []
        rw [hres]
        congr 1
        omega
      · simp only []
        rw [hnot]
        rw [List.range'_succ]
        simp [hop]
      · simp only []
        intro i hai hlt
        rcases Nat.eq_or_lt_of_le hai with heq | hgt
        · exact ⟨e, heq ▸ hop⟩
        · exact hbefore i hgt (by omega)
      · intro hallfail
        simp only []
        rw [hall hallfail]

/-- Claim C9: the retry wrapper invokes the operation at most
`retries + 1` times; the notification log contains exactly the
(attempt number, error) pair of every failed attempt, numbered
consecutively from 1 (each failure is followed directly by the next
attempt); every attempt before the last failed; the settled result is the
last attempt's outcome, so when every attempt fails the last error is
surfaced after exactly `retries + 1` invocations. -/
theorem c9_retry (op : Nat → Except String α) (retries : Nat) :
    (promiseRetry op retries).2.1 ≤ retries + 1 ∧
    (promiseRetry op retries).2.2 =
      (List.range' 1 (promiseRetry op retries).2.1).filterMap
        (fun i => match op i with
                  | .error e => some (i, e)
                  | .ok _ => none) ∧
    (∀ i, 1 ≤ i → i < (promiseRetry op retries).2.1 →
      ∃ e, op i = .error e) ∧
    (promiseRetry op retries).1 = op (promiseRetry op retries).2.1 ∧
    ((∀ i, ∃ e, op i = .error e) →
      (promiseRetry op retries).2.1 = retries + 1 ∧
      (promiseRetry op retries).1 = op (retries + 1)) := by
  simp only [promiseRetry]
  obtain ⟨hle, hone, hres, hnot, hbefore, hall⟩ := retryGo_spec op retries 1
  have hres' : (retryGo op 1 retries).1 = op ((retryGo op 1 retries).2.1) := by
    rw [hres]
    congr 1
    omega
  refine ⟨hle, hnot, ?_, hres', ?_⟩
  · intro i h1 hlt
    exact hbefore i h1 (by omega)
  · intro hfail
    have hc := hall hfail
    exact ⟨hc, by rw [hres', hc]⟩

theorem c9_retry_witness :
    (promiseRetry (fun _ => (.error "boom" : Except String Bool)) 2).2.1 = 3 ∧
    (promiseRetry (fun _ => (.error "boom" : Except String Bool)) 2).1
      = .error "boom" :=
  ⟨((c9_retry (fun _ => (.error "boom" : Except String Bool)) 2).2.2.2.2
      (fun _ => ⟨"boom", rfl⟩)).1,
   by rw [((c9_retry (fun _ => (.error "boom" : Except String Bool)) 2).2.2.2.2
      (fun _ => ⟨"boom", rfl⟩)).2]⟩

theorem runConcurrentCallers_hit (id : String) (h : Nat) (n : Nat)
    (c : OutfitDataCache) (hhit : lruCacheGet id c.entries = some h) :
    runConcurrentCallers id n c = (List.replicate n h, c) := by
  induction n with
  | zero => rfl
  | succ m ih =>
    unfold runConcurrentCallers
    unfold loadOutfitDataWithCaching
    rw [hhit]
    simp only [ih]
    rfl

theorem lruCacheGet_set (id : String) (h : Nat) (es : List (String × Nat)) :
    lruCacheGet id (lruCacheSet id h es) = some h := by
  unfold lruCacheGet lruCacheSet
  have : OUTFIT_DATA_CACHE_MAX = 39 + 1 := rfl
  rw [this, List.take_succ_cons]
  simp [List.find?]

/-- Claim C6: n concurrent `loadOutfitDataWithCaching` calls for the same
outfit id, starting from a miss and with the entry staying live, trigger
exactly one underlying fetch; every caller gets the same promise handle, so
every caller observes the same eventual result, success or failure. -/
theorem c6_cache_dedup (id : String) (n : Nat) (c : OutfitDataCache)
    (hmiss : lruCacheGet id c.entries = none) (hn : 1 ≤ n) :
    (runConcurrentCallers id n c).1 = List.replicate n c.nextHandle ∧
    (runConcurrentCallers id n c).2.fetchLog = c.fetchLog ++ [id] ∧
    (∀ res : Nat → FetchOutcome,
      ∀ x ∈ (runConcurrentCallers id n c).1,
      ∀ y ∈ (runConcurrentCallers id n c).1, res x = res y) := by
  obtain ⟨m, rfl⟩ : ∃ m, n = m + 1 := ⟨n - 1, by omega⟩
  have hrun : runConcurrentCallers id (m + 1) c =
      (c.nextHandle :: List.replicate m c.nextHandle,
       { entries := lruCacheSet id c.nextHandle c.entries,
         nextHandle := c.nextHandle + 1,
         fetchLog := c.fetchLog ++ [id] }) := by
    unfold runConcurrentCallers
    unfold loadOutfitDataWithCaching
    rw [hmiss]
    simp only []
    rw [runConcurrentCallers_hit id c.nextHandle m _ (by exact lruCacheGet_set id c.nextHandle c.entries)]
  rw [hrun]
  refine ⟨rfl, rfl, ?_⟩
  intro res x hx y hy
  simp only [← List.replicate_succ] at hx hy
  rw [List.eq_of_mem_replicate hx, List.eq_of_mem_replicate hy]

theorem c6_cache_dedup_witness :
    (runConcurrentCallers "123" 3 ⟨[], 0, []⟩).1 = List.replicate 3 0 ∧
    (runConcurrentCallers "123" 3 ⟨[], 0, []⟩).2.fetchLog = [] ++ ["123"] ∧
    (∀ res : Nat → FetchOutcome,
      ∀ x ∈ (runConcurrentCallers "123" 3 ⟨[], 0, []⟩).1,
      ∀ y ∈ (runConcurrentCallers "123" 3 ⟨[], 0, []⟩).1, res x = res y) :=
  c6_cache_dedup "123" 3 ⟨[], 0, []⟩ rfl (by decide)

theorem pureLister_retry (bucket : List String) (c : Option String) :
    (promiseRetry (pureLister bucket c) 10).1 = .ok (getImageKeys bucket c) := by
  rfl

/-- Claim C7: the loop's cursor is written only by `processPage`, whose
result state carries the worker-pool fold over the whole page together with
the cursor set to the page's last key; a subsequent enumeration call with
any cursor returns only keys sorting strictly after it; and the loop
terminates (result code 0) exactly when the page comes back empty,
otherwise it recurs on the processed state. -/
theorem c7_cursor (bucket : List String)
    (worker : String → Except String Bool) (st : BatchState) (fuel : Nat)
    (keys : List String) (hkeys : keys = getImageKeys bucket st.lastKey) :
    (∀ c k, k ∈ getImageKeys bucket (some c) → strLt c k = true) ∧
    (keys = [] →
      mainLoop (pureLister bucket) worker (fuel + 1) st = some (st, 0)) ∧
    (∀ h : keys ≠ [],
      mainLoop (pureLister bucket) worker (fuel + 1) st
        = mainLoop (pureLister bucket) worker fuel (processPage worker keys st) ∧
      (processPage worker keys st).lastKey = some (keys.getLast h) ∧
      processPage worker keys st =
        { runPool worker (keys.filter (fun k => ".png".data.isSuffixOf k.data))
            { st with
              numKeys := st.numKeys + keys.length,
              numImageKeys := st.numImageKeys
                + (keys.filter (fun k => ".png".data.isSuffixOf k.data)).length,
              numImageBackupKeys := st.numImageBackupKeys
                + (keys.filter
                    (fun k => ".png.bkup".data.isSuffixOf k.data)).length }
          with lastKey := some (keys.getLast h) }) := by
  refine ⟨?_, ?_, ?_⟩
  · intro c k hk
    have hk' := List.mem_of_mem_take hk
    rw [List.mem_filter] at hk'
    have := hk'.2
    rw [Bool.and_eq_true] at this
    exact this.2
  · intro hempty
    unfold mainLoop
    rw [pureLister_retry, ← hkeys, hempty]
    rfl
  · intro hne
    refine ⟨?_, ?_, ?_⟩
    · conv_lhs => unfold mainLoop
      rw [pureLister_retry, ← hkeys]
      simp [List.isEmpty_iff, hne]
    · unfold processPage
      simp only []
      rw [List.getLast?_eq_getLast keys hne]
    · unfold processPage
      simp only []
      rw [List.getLast?_eq_getLast keys hne]

/-- Claim C8: a per-key worker error is caught at the pool boundary and
appended to the failure list as a (key, error) pair while every other item
of the batch is still processed, and an enumeration failure that persists
through all retry attempts terminates the whole run with result code 1. -/
theorem c8_failure_handling :
    (∀ (worker : String → Except String Bool) (keys : List String)
        (st : BatchState),
      (runPool worker keys st).backupFailures
        = st.backupFailures ++ keys.filterMap
            (fun k => match worker k with
                      | .error e => some (k, e)
                      | .ok _ => none) ∧
      (runPool worker keys st).numImageKeyNoOps
        = st.numImageKeyNoOps + (keys.filter
            (fun k => match worker k with
                      | .ok false => true
                      | _ => false)).length) ∧
    (∀ (lister : Option String → Nat → Except String (List String))
        (worker : String → Except String Bool) (st : BatchState) (fuel : Nat),
      (∀ i, ∃ e, lister st.lastKey i = .error e) →
      mainLoop lister worker (fuel + 1) st = some (st, 1)) := by
  constructor
  · intro worker keys
    induction keys with
    | nil => intro st; simp [runPool]
    | cons k rest ih =>
      intro st
      unfold runPool
      cases hw : worker k with
      | ok b =>
        cases b with
        | true =>
          obtain ⟨ihf, ihn⟩ := ih st
          refine ⟨?_, ?_⟩
          · rw [ihf]
            simp [hw]
          · rw [ihn]
            simp [hw]
        | false =>
          obtain ⟨ihf, ihn⟩ := ih
            { st with numImageKeyNoOps := st.numImageKeyNoOps + 1 }
          refine ⟨?_, ?_⟩
          · rw [ihf]
            simp [hw]
          · rw [ihn]
            simp [hw]
            omega
      | error e =>
        obtain ⟨ihf, ihn⟩ := ih
          { st with backupFailures := st.backupFailures ++ [(k, e)] }
        refine ⟨?_, ?_⟩
        · rw [ihf]
          simp [hw]
        · rw [ihn]
          simp [hw]
  · intro lister worker st fuel hfail
    obtain ⟨hle, hone, hres, hnot, hbefore, hall⟩ :=
      retryGo_spec (lister st.lastKey) 10 1
    have hc := hall hfail
    obtain ⟨e, he⟩ := hfail 11
    have hfin : (promiseRetry (lister st.lastKey) 10).1 = .error e := by
      unfold promiseRetry
      rw [hres, hc]
      simpa using he
    unfold mainLoop
    rw [hfin]

theorem c7_cursor_witness :
    (strLt "outfits/000/000/001/preview.png"
      "outfits/000/000/001/preview.png.bkup" = true) ∧
    mainLoop (pureLister c7Bucket) c7Worker 2 c7St0
      = mainLoop (pureLister c7Bucket) c7Worker 1
          (processPage c7Worker (getImageKeys c7Bucket none) c7St0) ∧
    (processPage c7Worker (getImageKeys c7Bucket none) c7St0).lastKey
      = (getImageKeys c7Bucket none).getLast? := by
  have h := c7_cursor c7Bucket c7Worker c7St0 1 (getImageKeys c7Bucket none) rfl
  have hne : getImageKeys c7Bucket none ≠ [] := by decide
  refine ⟨?_, (h.2.2 hne).1, ?_⟩
  · exact h.1 "outfits/000/000/001/preview.png"
      "outfits/000/000/001/preview.png.bkup" (by decide)
  · rw [(h.2.2 hne).2.1, List.getLast?_eq_getLast _ hne]

theorem c8_failure_handling_witness :
    (runPool c8Worker ["a.png", "b.png", "c.png"] c7St0).backupFailures
      = [("b.png", "boom")] ∧
    (runPool c8Worker ["a.png", "b.png", "c.png"] c7St0).numImageKeyNoOps
      = 2 ∧
    mainLoop (fun _ _ => .error "down") c7Worker 1 c7St0
      = some (c7St0, 1) :=
  ⟨(c8_failure_handling.1 c8Worker ["a.png", "b.png", "c.png"] c7St0).1.trans
      (by decide),
   (c8_failure_handling.1 c8Worker ["a.png", "b.png", "c.png"] c7St0).2.trans
      (by decide),
   c8_failure_handling.2 (fun _ _ => .error "down") c7Worker c7St0 0
      (fun _ => ⟨"down", rfl⟩)⟩

theorem isDigitChar_cases (c : Char) (h : isDigitChar c = true) :
    c = '0' ∨ c = '1' ∨ c = '2' ∨ c = '3' ∨ c = '4' ∨ c = '5' ∨ c = '6'
      ∨ c = '7' ∨ c = '8' ∨ c = '9' := by
  simp [isDigitChar, digitChars, List.contains] at h
  rcases h with h | h | h | h | h | h | h | h | h | h <;> simp [h]

theorem digitToChar_charToDigit (c : Char) (h : isDigitChar c = true) :
    digitToChar (charToDigit c) = c := by
  rcases isDigitChar_cases c h with h | h | h | h | h | h | h | h | h | h <;>
    subst h <;> rfl

theorem charToDigit_lt (c : Char) (h : isDigitChar c = true) :
    charToDigit c < 10 := by
  rcases isDigitChar_cases c h with h | h | h | h | h | h | h | h | h | h <;>
    subst h <;> decide

theorem charToDigit_ne_zero (c : Char) (h : isDigitChar c = true)
    (h0 : c ≠ '0') : charToDigit c ≠ 0 := by
  rcases isDigitChar_cases c h with h | h | h | h | h | h | h | h | h | h <;>
    subst h <;> simp_all <;> decide

theorem natDigitsLE_eq_digits :
    ∀ (fuel n : Nat), n ≤ fuel → natDigitsLE fuel n = Nat.digits 10 n := by
  intro fuel
  induction fuel with
  | zero =>
    intro n hn
    have : n = 0 := by omega
    subst this
    simp [natDigitsLE]
  | succ f ih =>
    intro n hn
    by_cases h0 : n = 0
    · subst h0
      simp [natDigitsLE]
    · have hpos : 0 < n := Nat.pos_of_ne_zero h0
      have hdiv : n / 10 ≤ f := by
        have := Nat.div_lt_self hpos (by norm_num : 1 < 10)
        omega
      unfold natDigitsLE
      rw [if_neg h0, ih (n / 10) hdiv,
        Nat.digits_def' (by norm_num : 1 < 10) hpos]

theorem foldl_horner :
    ∀ (l : List Char) (a : Nat),
      l.foldl (fun acc c => 10 * acc + charToDigit c) a
        = Nat.ofDigits 10 ((l.map charToDigit).reverse) + a * 10 ^ l.length := by
  intro l
  induction l with
  | nil => intro a; simp [Nat.ofDigits]
  | cons c t ih =>
    intro a
    rw [List.foldl_cons, ih]
    rw [List.map_cons, List.reverse_cons, Nat.ofDigits_append]
    simp [Nat.ofDigits_singleton, List.length_reverse, pow_succ]
    ring

theorem numberOfDigits_eq_ofDigits (l : List Char) :
    numberOfDigits l = Nat.ofDigits 10 ((l.map charToDigit).reverse) := by
  unfold numberOfDigits
  rw [foldl_horner]
  simp

theorem numberOfDigits_zeros (k : Nat) (l : List Char) :
    numberOfDigits (List.replicate k '0' ++ l) = numberOfDigits l := by
  unfold numberOfDigits
  rw [List.foldl_append]
  congr 1
  induction k with
  | zero => rfl
  | succ m ih => simpa [List.replicate_succ, charToDigit] using ih

theorem natToDigits_numberOfDigits (s : List Char) (h1 : s ≠ [])
    (h2 : ∀ c ∈ s, isDigitChar c = true) (h3 : s.head h1 ≠ '0') :
    natToDigits (numberOfDigits s) = s := by
  have hL : (s.map charToDigit).reverse ≠ [] := by
    simp [h1]
  have hlt : ∀ d ∈ (s.map charToDigit).reverse, d < 10 := by
    intro d hd
    rw [List.mem_reverse, List.mem_map] at hd
    obtain ⟨c, hc, rfl⟩ := hd
    exact charToDigit_lt c (h2 c hc)
  have hlast : ∀ h : (s.map charToDigit).reverse ≠ [],
      ((s.map charToDigit).reverse).getLast h ≠ 0 := by
    intro h
    rw [List.getLast_reverse]
    have hhead : (s.map charToDigit).head (by simpa using h1)
        = charToDigit (s.head h1) := by
      cases s with
      | nil => exact absurd rfl h1
      | cons c t => rfl
    rw [hhead]
    exact charToDigit_ne_zero _ (h2 _ (List.head_mem h1)) h3
  have hd := Nat.digits_ofDigits 10 (by norm_num) _ hlt hlast
  have hn := numberOfDigits_eq_ofDigits s
  have hne0 : numberOfDigits s ≠ 0 := by
    intro h0
    rw [h0] at hn
    rw [← hn] at hd
    rw [Nat.digits_zero] at hd
    exact hL hd.symm
  unfold natToDigits
  rw [if_neg hne0]
  rw [natDigitsLE_eq_digits _ _ (le_refl _), hn, hd]
  rw [List.reverse_reverse, List.map_map]
  have hcong : ∀ c ∈ s, (digitToChar ∘ charToDigit) c = id c := fun c hc =>
    digitToChar_charToDigit c (h2 c hc)
  rw [List.map_congr_left hcong, List.map_id]

theorem splitOnChar_ne_nil (sep : Char) :
    ∀ l : List Char, splitOnChar sep l ≠ [] := by
  intro l
  induction l with
  | nil => simp [splitOnChar]
  | cons c rest ih =>
    unfold splitOnChar
    by_cases h : c = sep
    · simp [h]
    · rw [if_neg h]
      cases hs : splitOnChar sep rest with
      | nil => simp
      | cons a t => simp

theorem splitOnChar_no_sep (sep : Char) :
    ∀ (xs : List Char), sep ∉ xs → splitOnChar sep xs = [xs] := by
  intro xs
  induction xs with
  | nil => intro _; rfl
  | cons c rest ih =>
    intro h
    have hc : c ≠ sep := fun hc => h (hc ▸ List.mem_cons_self c rest)
    have hrest : sep ∉ rest := fun hr => h (List.mem_cons_of_mem c hr)
    unfold splitOnChar
    rw [if_neg hc, ih hrest]

theorem splitOnChar_append (sep : Char) :
    ∀ (xs rest : List Char), sep ∉ xs →
      splitOnChar sep (xs ++ sep :: rest) = xs :: splitOnChar sep rest := by
  intro xs
  induction xs with
  | nil =>
    intro rest _
    show splitOnChar sep (sep :: rest) = [] :: splitOnChar sep rest
    conv_lhs => unfold splitOnChar
    rw [if_pos rfl]
  | cons c xs' ih =>
    intro rest h
    have hc : c ≠ sep := fun hc => h (hc ▸ List.mem_cons_self c xs')
    have hxs : sep ∉ xs' := fun hr => h (List.mem_cons_of_mem c hr)
    show splitOnChar sep (c :: (xs' ++ sep :: rest))
      = (c :: xs') :: splitOnChar sep rest
    conv_lhs => unfold splitOnChar
    rw [if_neg hc, ih rest hxs]

theorem c10_core (id f : List Char) (sz : Nat)
    (hid1 : id ≠ []) (hid2 : ∀ c ∈ id, isDigitChar c = true)
    (hid3 : id.length ≤ 9) (hid4 : id.head? ≠ some '0')
    (hfns : '/' ∉ f)
    (hfmap : (if f = "small_preview.png".data then some 150
              else if f = "medium_preview.png".data then some 300
              else if f = "preview.png".data then some 600
              else none : Option Nat) = some sz) :
    extractOutfitId (buildOutfitKey id f) = id ∧
    parseS3Key (buildOutfitKey id f) = some (numberOfDigits id, sz) := by
  have hplen : (padStart9 id).length = 9 := by
    simp [padStart9]
    omega
  have hpdig : ∀ c ∈ padStart9 id, isDigitChar c = true := by
    intro c hc
    rw [padStart9, List.mem_append] at hc
    rcases hc with hc | hc
    · rw [List.eq_of_mem_replicate hc]
      decide
    · exact hid2 c hc
  have hsub1 : ∀ c ∈ (padStart9 id).take 3, c ∈ padStart9 id :=
    fun c hc => List.mem_of_mem_take hc
  have hsub2 : ∀ c ∈ ((padStart9 id).drop 3).take 3, c ∈ padStart9 id :=
    fun c hc => List.mem_of_mem_drop (List.mem_of_mem_take hc)
  have hsub3 : ∀ c ∈ ((padStart9 id).drop 6).take 3, c ∈ padStart9 id :=
    fun c hc => List.mem_of_mem_drop (List.mem_of_mem_take hc)
  have hns : ∀ (seg : List Char), (∀ c ∈ seg, c ∈ padStart9 id) →
      '/' ∉ seg := by
    intro seg hsubm hmem
    have := hpdig _ (hsubm _ hmem)
    exact absurd this (by decide)
  have e1 : buildOutfitKey id f
      = "outfits".data ++ '/' :: ((padStart9 id).take 3
        ++ '/' :: (((padStart9 id).drop 3).take 3
        ++ '/' :: (((padStart9 id).drop 6).take 3 ++ '/' :: f))) := by
    unfold buildOutfitKey
    simp [List.cons_append, List.append_assoc]
  have hsplit : splitOnChar '/' (buildOutfitKey id f)
      = ["outfits".data, (padStart9 id).take 3,
         ((padStart9 id).drop 3).take 3, ((padStart9 id).drop 6).take 3, f] := by
    rw [e1]
    rw [splitOnChar_append '/' ("outfits".data) _ (by decide)]
    rw [splitOnChar_append '/' _ _ (hns _ hsub1)]
    rw [splitOnChar_append '/' _ _ (hns _ hsub2)]
    rw [splitOnChar_append '/' _ _ (hns _ hsub3)]
    rw [splitOnChar_no_sep '/' f hfns]
  have hs3 : ((padStart9 id).drop 6).take 3 = (padStart9 id).drop 6 := by
    apply List.take_of_length_le
    rw [List.length_drop, hplen]
  have hcat : (padStart9 id).take 3 ++ (((padStart9 id).drop 3).take 3
      ++ ((padStart9 id).drop 6).take 3) = padStart9 id := by
    rw [hs3]
    have hd : ((padStart9 id).drop 3).drop 3 = (padStart9 id).drop 6 := by
      rw [List.drop_drop]
    rw [← hd, List.take_append_drop, List.take_append_drop]
  have hnum : numberOfDigits (padStart9 id) = numberOfDigits id :=
    numberOfDigits_zeros _ _
  have hhead : id.head hid1 ≠ '0' := by
    cases id with
    | nil => exact absurd rfl hid1
    | cons c t =>
      simp only [List.head?] at hid4
      simp only [List.head]
      intro hc
      exact hid4 (by rw [hc])
  constructor
  · unfold extractOutfitId
    rw [hsplit]
    simp only [List.drop, List.take, List.flatten]
    rw [List.append_nil, hcat, hnum]
    exact natToDigits_numberOfDigits id hid1 hid2 hhead
  · unfold parseS3Key
    rw [hsplit]
    simp only []
    rw [if_pos ?hcond]
    case hcond =>
      refine ⟨by trivial, ?_, ?_, ?_, ?_, ?_, ?_⟩
      · simp [hplen]
      · rw [List.all_eq_true]
        intro c hc
        exact hpdig c (hsub1 c hc)
      · simp [List.length_take, List.length_drop, hplen]
      · rw [List.all_eq_true]
        intro c hc
        exact hpdig c (hsub2 c hc)
      · simp [List.length_take, List.length_drop, hplen]
      · rw [List.all_eq_true]
        intro c hc
        exact hpdig c (hsub3 c hc)
    rw [hfmap]
    rw [List.append_assoc, hcat, hnum]

/-- Claim C10: for an outfit-id string denoting a positive integer of at
most nine digits without leading zeros, building the object key (zero-pad
to nine digits, three 3-character path segments under `outfits/`) and then
extracting the id back — joining the three segments and stripping leading
zeros as the batch driver does — returns the original id string, and
`parseS3Key` recovers the id's numeric value and the size class. -/
theorem c10_roundtrip (id f : List Char) (sz : Nat)
    (hid1 : id ≠ []) (hid2 : ∀ c ∈ id, isDigitChar c = true)
    (hid3 : id.length ≤ 9) (hid4 : id.head? ≠ some '0')
    (hf : (f, sz) ∈ [("preview.png".data, 600),
                     ("medium_preview.png".data, 300),
                     ("small_preview.png".data, 150)]) :
    extractOutfitId (buildOutfitKey id f) = id ∧
    parseS3Key (buildOutfitKey id f) = some (numberOfDigits id, sz) := by
  simp only [List.mem_cons, List.mem_singleton, Prod.mk.injEq,
    List.not_mem_nil, or_false] at hf
  rcases hf with ⟨rfl, rfl⟩ | ⟨rfl, rfl⟩ | ⟨rfl, rfl⟩ <;>
    exact c10_core id _ _ hid1 hid2 hid3 hid4 (by decide) (by decide)

theorem c10_roundtrip_witness :
    extractOutfitId (buildOutfitKey "1234".data "preview.png".data)
      = "1234".data ∧
    parseS3Key (buildOutfitKey "1234".data "preview.png".data)
      = some (numberOfDigits "1234".data, 600) :=
  c10_roundtrip "1234".data "preview.png".data 600 (by decide) (by decide)
    (by decide) (by decide) (by decide)

end OutfitLogs
